import Mathlib

/-!
Shallow embedding of the reminder subsystem of `src/main.py` (a Telegram
bot with file conversion, cloud storage and reminders).  The embedding
covers: the time-expression regex `TIME_RE` and `parse_delay_from_text`
(lines 136-172), the scheduler adapter `schedule_reminder_in_app`
(lines 118-132), the fired callback `alarm` (lines 100-115), the
creation paths of `cmd_remind` (lines 225-246) and `set_reminder`
(lines 264-291), `cancel_reminder` (lines 315-335), the recovery loop
`reschedule_persisted_reminders` (lines 404-418) and the startup token
guard in `main` (lines 422-425).

Machine model notes:
- Python integers are unbounded, so quantities become `Nat` and epoch
  timestamps and delays become `Int` (a delay can be negative before the
  floor is applied).
- The persisted reminders JSON object is modelled as an association
  list `Store = List (String × Reminder)` in insertion order, matching
  the iteration order of a Python dict.
- The regex engine fragment needed by `TIME_RE` is embedded directly:
  the pattern has no nested quantifiers, and at any match position the
  backtracking search is deterministic (units contain no digits and no
  whitespace, so the greedy runs of digits and spaces never give back
  characters on a viable path), which the embedding exploits.  Character
  classes are the ASCII fragments of Python `\d`, `\s` and `\w`; the
  input to the search is already lowercased by `parse_delay_from_text`,
  so the IGNORECASE flag is reflected by matching lowercase literals.
-/

/-- ASCII fragment of the Python regex class `\d`. -/
def isDigitCharB (c : Char) : Bool := '0' ≤ c && c ≤ '9'

/-- ASCII fragment of the Python regex class `\s` (also the set stripped
by `str.strip`). -/
def isSpaceCharB (c : Char) : Bool :=
  c = ' ' || c = '\t' || c = '\n' || c = '\x0b' || c = '\x0c' || c = '\r'

/-- ASCII fragment of the Python regex class `\w`, used by `\b`. -/
def isWordCharB (c : Char) : Bool :=
  ('a' ≤ c && c ≤ 'z') || ('A' ≤ c && c ≤ 'Z') || isDigitCharB c || c = '_'

/-- ASCII lowercasing of one character, the fragment of `str.lower`
exercised by the reminder texts. -/
def asciiLower (c : Char) : Char :=
  if 'A' ≤ c ∧ c ≤ 'Z' then Char.ofNat (c.toNat + 32) else c

def lowerList (cs : List Char) : List Char := cs.map asciiLower

/-- `str.strip()`: drop whitespace at both ends. -/
def stripList (cs : List Char) : List Char :=
  (((cs.dropWhile isSpaceCharB).reverse).dropWhile isSpaceCharB).reverse

/-- `text.strip().lower()` as performed at the top of
`parse_delay_from_text` (line 150). -/
def normalizeText (s : String) : List Char := lowerList (stripList s.toList)

/-- Greedy span: the longest run of characters satisfying `p`, and the
rest.  Models the behaviour of `\d+` and `\s*` in `TIME_RE` (on every
viable path the greedy run is maximal, see the header note). -/
def spanList (p : Char → Bool) : List Char → List Char × List Char
  | [] => ([], [])
  | c :: rest =>
    if p c then
      let s := spanList p rest
      (c :: s.1, s.2)
    else ([], c :: rest)

/-- Match a literal character sequence, returning the remaining input. -/
def matchLit : List Char → List Char → Option (List Char)
  | [], cs => some cs
  | _ :: _, [] => none
  | p :: ps, c :: cs => if c = p then matchLit ps cs else none

/-- The unit alternatives of `TIME_RE` (line 137), in the order the
regex alternation tries them. -/
def unitAlternatives : List String :=
  ["s", "sec", "secs", "second", "seconds",
   "m", "min", "mins", "minute", "minutes",
   "h", "hr", "hrs", "hour", "hours",
   "d", "day", "days"]

/-- The trailing `\b` of `TIME_RE`: every unit ends in a word character,
so the boundary holds exactly when the next character is absent or is
not a word character. -/
def wordBoundaryAfter (cs : List Char) : Bool :=
  match cs with
  | [] => true
  | c :: _ => !isWordCharB c

/-- First unit alternative (in regex alternation order) that matches
literally and is followed by a word boundary; a matching alternative
whose boundary fails is backtracked, and the next one is tried. -/
def matchUnitFrom : List String → List Char → Option (String × List Char)
  | [], _ => none
  | u :: us, cs =>
    match matchLit u.toList cs with
    | some rest =>
      if wordBoundaryAfter rest then some (u, rest) else matchUnitFrom us cs
    | none => matchUnitFrom us cs

def matchUnit (cs : List Char) : Option (String × List Char) :=
  matchUnitFrom unitAlternatives cs

/-- Decimal value of a digit run, as `int(m.group("num"))` computes it. -/
def digitsVal (ds : List Char) : Nat :=
  ds.foldl (fun a c => 10 * a + (c.toNat - 48)) 0

/-- The `(?P<num>\d+)\s*(?P<unit>...)\b` tail of `TIME_RE` at a fixed
position: returns the numeric value, the unit token, and the consumed
characters. -/
def matchNumUnit (cs : List Char) : Option (Nat × String × List Char) :=
  let s1 := spanList isDigitCharB cs
  if s1.1.isEmpty then none
  else
    let s2 := spanList isSpaceCharB s1.2
    match matchUnit s2.2 with
    | some (u, _) => some (digitsVal s1.1, u, s1.1 ++ s2.1 ++ u.toList)
    | none => none

/-- The whole `TIME_RE` body at a fixed match position: the optional
group `(in\s*)?` followed by the number and unit.  When the input starts
with `in` the group participates or the whole position fails, because
the fallback with an empty group would need a digit where `i` stands. -/
def tryMatchAt (cs : List Char) : Option (Nat × String × List Char) :=
  match matchLit ['i', 'n'] cs with
  | some afterIn =>
    let s := spanList isSpaceCharB afterIn
    (match matchNumUnit s.2 with
     | some r => some (r.1, r.2.1, 'i' :: 'n' :: (s.1 ++ r.2.2))
     | none => none)
  | none => matchNumUnit cs

/-- `re.search` scan for `TIME_RE`: try every position from the left,
attempting a match only where the leading `\b` holds (the previous
character and the current one disagree on wordness; the start of the
text counts as a non-word character). -/
def searchTimeAux (prevWord : Bool) : List Char → Option (Nat × String × List Char)
  | [] => none
  | c :: rest =>
    if prevWord != isWordCharB c then
      match tryMatchAt (c :: rest) with
      | some r => some r
      | none => searchTimeAux (isWordCharB c) rest
    else searchTimeAux (isWordCharB c) rest

/-- `TIME_RE.search` on an already-normalized character list, returning
the number, the unit token and the matched substring `m.group(0)`. -/
def timeReSearch (cs : List Char) : Option (Nat × String × List Char) :=
  searchTimeAux false cs

-- limits (lines 38-39)
def MAX_REMINDER_SECONDS : Nat := 60 * 60 * 24 * 365
def MIN_REMINDER_SECONDS : Nat := 1

/-- Unit resolution of `parse_delay_from_text` (lines 157-165):
`seconds = num`, then the `startswith` chain on the unit token. -/
def unitSeconds (num : Nat) (unit : String) : Nat :=
  match unit.toList.head? with
  | some 's' => num
  | some 'm' => num * 60
  | some 'h' => num * 3600
  | some 'd' => num * 86400
  | _ => num

/-- `parse_delay_from_text` (lines 142-172): normalize, search for
`TIME_RE`, resolve the unit, then apply the safety clamp.  Returns
`(seconds, matched_text)` with `(none, none)` standing for the
`(None, None)` rejection. -/
def parse_delay_from_text (text : String) : Option Nat × Option String :=
  match timeReSearch (normalizeText text) with
  | none => (none, none)
  | some (num, unit, matched) =>
    let seconds := unitSeconds num unit
    if seconds > MAX_REMINDER_SECONDS then (none, none)
    else if seconds < MIN_REMINDER_SECONDS then
      (some MIN_REMINDER_SECONDS, some (String.mk matched))
    else (some seconds, some (String.mk matched))

/-- A persisted reminder record (the dict built at lines 229-236 and
266): `id, chat_id, user_id, task, when_ts, created_at`. -/
structure Reminder where
  id : String
  chat_id : Int
  user_id : String
  task : String
  when_ts : Int
  created_at : String
deriving DecidableEq

/-- A timer registration, the observable effect of
`job_queue.run_once(alarm, delay, chat_id=..., name=str(id),
data=...)` at line 131. -/
structure Job where
  delay : Int
  chat_id : Int
  name : String
  task : String
  rid : String
deriving DecidableEq

/-- The persisted reminders JSON object: id → record, in insertion
order like a Python dict. -/
abbrev Store := List (String × Reminder)

/-- Python `reminders[rid] = rem`: replace in place when the key is
present, append otherwise. -/
def dictInsert (k : String) (v : Reminder) (s : Store) : Store :=
  if s.any (fun p => p.1 = k) then
    s.map (fun p => if p.1 = k then (k, v) else p)
  else s ++ [(k, v)]

/-- Python `del reminders[rid]` on the dict model. -/
def dictErase (k : String) (s : Store) : Store :=
  s.filter (fun p => p.1 ≠ k)

/-- Python `reminders[rid]` / `rid in reminders` lookup. -/
def dictLookup (k : String) (s : Store) : Option Reminder :=
  (s.find? (fun p => p.1 = k)).map (fun p => p.2)

/-- Every entry of the persisted mapping is keyed by the id stored
inside its own record. -/
def storeWF (s : Store) : Bool :=
  s.all (fun p => p.1 == p.2.id)

/-- `schedule_reminder_in_app` (lines 118-132): compute the delay from
the current clock, floor it at one second, refuse delays above the
ceiling (returning `None` and leaving every file untouched), otherwise
arm a one-shot timer.  The clock reading `now_ts` is a parameter. -/
def schedule_reminder_in_app (now_ts : Int) (r : Reminder) : Option Job :=
  let d := r.when_ts - now_ts
  let delay := if d ≤ 0 then 1 else d
  if delay > (MAX_REMINDER_SECONDS : Int) then none
  else some { delay := delay, chat_id := r.chat_id, name := r.id,
              task := r.task, rid := r.id }

/-- `schedule_reminder_in_app` never reads or writes the reminders
file; this wrapper makes the unchanged persisted store explicit. -/
def schedule_with_store (now_ts : Int) (store : Store) (r : Reminder) :
    Store × Option Job :=
  (store, schedule_reminder_in_app now_ts r)

/-- The fired callback `alarm` (lines 100-115): send the reminder
message (a raised send error is swallowed by the except block, modelled
by `sendOk = false` delivering nothing), then reload the store and
delete the record if it is still present.  Returns the delivered
messages and the resulting persisted store. -/
def alarm (sendOk : Bool) (store : Store) (rid task : String) :
    List String × Store :=
  let sent := if sendOk then ["⏰ REMINDER: " ++ task ++ "\n(ID: " ++ rid ++ ")"] else []
  let store2 := if store.any (fun p => p.1 = rid) then dictErase rid store else store
  (sent, store2)

/-- `cancel_reminder` (lines 315-335) after argument extraction: reply
not-found when the id is absent (the store is not written), otherwise
best-effort-remove the job and delete the record.  Returns the
resulting store and the reply text. -/
def cancel_reminder (store : Store) (rid : String) : Store × String :=
  if (dictLookup rid store).isNone then
    (store, "No reminder found with that ID.")
  else
    (dictErase rid store, "✅ Cancelled reminder " ++ rid)

/-- The persistence-and-scheduling tail of `cmd_remind` (lines 225-246)
after a successful parse: build the record with `when_ts = now +
seconds`, write the updated mapping, schedule, reply.  `save_reminders`
is not wrapped in any try block there, so a failed write (modelled by
`writeOk = false`) raises out of the handler before the schedule call
and before any reply is produced; the persisted file keeps its previous
contents.  `now2` is the separate clock reading taken inside
`schedule_reminder_in_app`. -/
def cmd_remind_create (writeOk : Bool) (now now2 : Int) (store : Store)
    (rid : String) (chat_id : Int) (user_id task created : String)
    (seconds : Nat) : Except String (Store × Option Job × List String) :=
  let rem : Reminder :=
    { id := rid, chat_id := chat_id, user_id := user_id, task := task,
      when_ts := now + (seconds : Int), created_at := created }
  if writeOk then
    Except.ok (dictInsert rid rem store, schedule_reminder_in_app now2 rem,
      ["✅ Reminder set (ID: " ++ rid ++ ") Task: " ++ task])
  else
    Except.error "OSError raised by save_reminders propagates out of cmd_remind; no reply is sent"

/-- The analogous persistence-and-scheduling tail of the
natural-language handler `set_reminder` (lines 264-291); the store
update and the unguarded `save_reminders` call are identical in both
branches of that handler. -/
def set_reminder_create (writeOk : Bool) (now now2 : Int) (store : Store)
    (rid : String) (chat_id : Int) (user_id task created : String)
    (seconds : Nat) : Except String (Store × Option Job × List String) :=
  let rem : Reminder :=
    { id := rid, chat_id := chat_id, user_id := user_id, task := task,
      when_ts := now + (seconds : Int), created_at := created }
  if writeOk then
    Except.ok (dictInsert rid rem store, schedule_reminder_in_app now2 rem,
      ["✅ Reminder set: " ++ task])
  else
    Except.error "OSError raised by save_reminders propagates out of set_reminder; no reply is sent"

/-- `reschedule_persisted_reminders` (lines 404-418): iterate the
persisted mapping in order and arm each record.  `arm` abstracts one
`schedule_reminder_in_app` call; `none` covers both a ceiling refusal
(the function returns `None`) and a raised exception, which the
`except` block logs before the loop continues with the next record. -/
def reschedule_persisted_reminders (arm : Reminder → Option Job) :
    Store → List Job
  | [] => []
  | (_, r) :: rest =>
    match arm r with
    | some j => j :: reschedule_persisted_reminders arm rest
    | none => reschedule_persisted_reminders arm rest

-- startup token guard (lines 31-32 and 422-425)
def DEFAULT_TOKEN : String := "YOUR_BOT_TOKEN_HERE"

/-- `TOKEN = os.getenv("BOT_TOKEN", DEFAULT_TOKEN)` (line 32). -/
def tokenFromEnv (env : Option String) : String := env.getD DEFAULT_TOKEN

/-- What the process does after the guard in `main` (lines 422-425):
either it stops before building the application (the guard logs a
diagnostic and returns; falling off the end of the script, the Python
process then terminates with exit status 0), or it serves input. -/
inductive MainOutcome where
  | abort (diagnostic : String) (exitCode : Nat)
  | serve
deriving DecidableEq

/-- The startup guard of `main` (lines 422-425): `if TOKEN ==
"YOUR_BOT_TOKEN_HERE" or not TOKEN: logger.error(...); return`. -/
def mainStartup (env : Option String) : MainOutcome :=
  if tokenFromEnv env = DEFAULT_TOKEN ∨ tokenFromEnv env = "" then
    MainOutcome.abort
      "Please set the BOT_TOKEN environment variable or put token in DEFAULT_TOKEN" 0
  else MainOutcome.serve

/-- The exit status of the process when the guard aborts, `none` when
the bot proceeds to serve. -/
def mainExitCode (env : Option String) : Option Nat :=
  match mainStartup env with
  | MainOutcome.abort _ k => some k
  | MainOutcome.serve => none

/-- The span of ASCII decimal digit characters, used to quantify over
the digit runs matched by `\d+`. -/
def digitChars : List Char := ['0', '1', '2', '3', '4', '5', '6', '7', '8', '9']

-- concrete records used by the closed witness statements
def farReminder : Reminder :=
  { id := "r-far", chat_id := 7, user_id := "u1", task := "water",
    when_ts := 99999999, created_at := "t0" }

def pastReminder : Reminder :=
  { id := "r-past", chat_id := 3, user_id := "u2", task := "stretch",
    when_ts := 50, created_at := "t1" }


/-! ## Dictionary lemmas -/

theorem dictLookup_dictErase (k : String) (s : Store) :
    dictLookup k (dictErase k s) = none := by
  have h : (dictErase k s).find? (fun p => p.1 = k) = none := by
    rw [List.find?_eq_none]
    intro x hx
    rw [dictErase, List.mem_filter] at hx
    simp at hx ⊢
    exact hx.2
  simp [dictLookup, h]

theorem dictLookup_none_iff (k : String) (s : Store) :
    dictLookup k s = none ↔ s.any (fun p => p.1 = k) = false := by
  simp [dictLookup, List.find?_eq_none, List.any_eq_false]

theorem storeWF_filter (s : Store) (q : String × Reminder → Bool)
    (h : storeWF s = true) : storeWF (s.filter q) = true := by
  rw [storeWF, List.all_eq_true] at *
  intro p hp
  exact h p (List.mem_filter.mp hp).1

theorem storeWF_insert (s : Store) (k : String) (v : Reminder)
    (hv : v.id = k) (h : storeWF s = true) :
    storeWF (dictInsert k v s) = true := by
  rw [storeWF, List.all_eq_true] at *
  intro p hp
  rw [dictInsert] at hp
  by_cases hc : s.any (fun p => p.1 = k)
  · rw [if_pos hc] at hp
    rcases List.mem_map.mp hp with ⟨q, hq, rfl⟩
    by_cases hqk : q.1 = k
    · simp [hqk, hv]
    · simp only [if_neg hqk]
      exact h q hq
  · rw [if_neg hc] at hp
    rcases List.mem_append.mp hp with h1 | h1
    · exact h p h1
    · simp at h1
      subst h1
      simp [hv]

/-! ## Claim C2: the clamp policy of the parser -/

/-- C2: for every input text whose matched time expression computes to
more than 31536000 seconds, `parse_delay_from_text` returns the
not-found result `(none, none)`, and for every input whose matched
expression computes to fewer than 1 second it returns the 1-second
floor together with the matched substring. -/
theorem C2_clamp_policy (t : String) (n : Nat) (u : String) (m : List Char)
    (h : timeReSearch (normalizeText t) = some (n, u, m)) :
    (unitSeconds n u > MAX_REMINDER_SECONDS →
      parse_delay_from_text t = (none, none)) ∧
    (unitSeconds n u < MIN_REMINDER_SECONDS →
      parse_delay_from_text t =
        (some MIN_REMINDER_SECONDS, some (String.mk m))) := by
  refine ⟨fun hc => ?_, fun hc => ?_⟩
  · simp [parse_delay_from_text, h, hc]
  · have hnot : ¬ unitSeconds n u > MAX_REMINDER_SECONDS := by
      simp only [MIN_REMINDER_SECONDS] at hc
      simp only [MAX_REMINDER_SECONDS]
      omega
    simp [parse_delay_from_text, h, hnot, hc]

/-- C2 witness: `"0 sec"` is floored to 1 second with its matched
substring, and `"999999 days"` (86399913600 seconds) is rejected. -/
theorem C2_clamp_policy_witness :
    parse_delay_from_text "0 sec" =
      (some MIN_REMINDER_SECONDS, some (String.mk ['0', ' ', 's', 'e', 'c'])) ∧
    parse_delay_from_text "999999 days" = (none, none) :=
  ⟨(C2_clamp_policy "0 sec" 0 "sec" ['0', ' ', 's', 'e', 'c']
      (by decide)).2 (by decide),
   (C2_clamp_policy "999999 days" 999999 "days"
      ['9', '9', '9', '9', '9', '9', ' ', 'd', 'a', 'y', 's']
      (by decide)).1 (by decide)⟩

/-! ## Claim C3: the scheduler adapter delay and ceiling refusal -/

/-- C3: `schedule_reminder_in_app` computes the timer delay as
`max 1 (fire_at - now)`; when that delay exceeds the one-year ceiling
no timer is armed and no handle is returned, while the persisted store
is left untouched; otherwise a timer with exactly that delay is armed. -/
theorem C3_register_delay (now : Int) (store : Store) (r : Reminder) :
    schedule_reminder_in_app now r =
      (if max 1 (r.when_ts - now) > (MAX_REMINDER_SECONDS : Int) then none
       else some { delay := max 1 (r.when_ts - now), chat_id := r.chat_id,
                   name := r.id, task := r.task, rid := r.id }) ∧
    (max 1 (r.when_ts - now) > (MAX_REMINDER_SECONDS : Int) →
      schedule_with_store now store r = (store, none)) := by
  have hd : (if r.when_ts - now ≤ 0 then (1 : Int) else r.when_ts - now) =
      max 1 (r.when_ts - now) := by
    rcases le_or_lt (r.when_ts - now) 0 with h | h
    · rw [if_pos h, max_eq_left (by omega)]
    · rw [if_neg (by omega), max_eq_right (by omega)]
  constructor
  · simp only [schedule_reminder_in_app]
    rw [hd]
  · intro h
    simp only [schedule_with_store, schedule_reminder_in_app]
    rw [hd, if_pos h]

/-- C3 witness: a record whose fire time is about 3.17 years away is
refused and the store is returned unchanged. -/
theorem C3_register_delay_witness :
    schedule_with_store 0 [] farReminder = ([], none) :=
  (C3_register_delay 0 [] farReminder).2 (by decide)

/-! ## Claim C8: cancel on an absent id -/

/-- C8: for every id not present in the reminder store,
`cancel_reminder` replies with the not-found message and returns the
store exactly unchanged. -/
theorem C8_cancel_not_found (store : Store) (rid : String)
    (h : dictLookup rid store = none) :
    cancel_reminder store rid = (store, "No reminder found with that ID.") := by
  simp [cancel_reminder, h]

/-- C8 witness: cancelling an unknown id against the empty store. -/
theorem C8_cancel_not_found_witness :
    cancel_reminder [] "a1b2" = ([], "No reminder found with that ID.") :=
  C8_cancel_not_found [] "a1b2" rfl

/-! ## Claim C6: the startup token guard -/

/-- C6 counterexample: with `BOT_TOKEN` unset the process logs the
diagnostic and stops before serving, but the `return` in `main` makes
the Python process terminate normally, with exit status 0 — not the
non-zero status the claim asserts. -/
theorem C6_token_guard_counterexample :
    mainExitCode none = some 0 ∧
    mainStartup none = MainOutcome.abort
      "Please set the BOT_TOKEN environment variable or put token in DEFAULT_TOKEN" 0 :=
  ⟨rfl, rfl⟩

/-- C6 (amended): if the secret token is absent from the environment
(unset, left at the placeholder, or empty), the process logs a clear
diagnostic and stops before serving any input, terminating with exit
status 0 (a normal return), not a non-zero status. -/
theorem C6_token_guard_amended (env : Option String)
    (h : env = none ∨ env = some DEFAULT_TOKEN ∨ env = some "") :
    mainStartup env = MainOutcome.abort
      "Please set the BOT_TOKEN environment variable or put token in DEFAULT_TOKEN" 0 := by
  rcases h with rfl | rfl | rfl <;> rfl

/-- C6 witness: the guard fires on an empty token value. -/
theorem C6_token_guard_amended_witness :
    mainStartup (some "") = MainOutcome.abort
      "Please set the BOT_TOKEN environment variable or put token in DEFAULT_TOKEN" 0 :=
  C6_token_guard_amended (some "") (Or.inr (Or.inr rfl))

/-! ## Claim C7: surfacing of Durable Store write failures on create -/

/-- C7 counterexample: when the store write fails during a create,
`cmd_remind` does not send the user any message at all — the
`save_reminders` call is not wrapped in a try block, so the exception
propagates out of the handler before any reply is produced.  In
particular the user never receives a "could not save" message, contrary
to the claim. -/
theorem C7_could_not_save_counterexample :
    cmd_remind_create false 1000 1000 [] "rid-1" 42 "u3" "call mom" "t2" 600 =
      Except.error
        "OSError raised by save_reminders propagates out of cmd_remind; no reply is sent" :=
  rfl

/-- C7 (amended): on a create request whose Durable Store write fails,
the exception propagates uncaught out of the handler — the user
receives no reminder-set confirmation and no message of any kind (in
particular no "could not save" notice) and the persisted store keeps
its previous contents; when the write succeeds, the create path always
completes with the inserted record, the scheduling attempt and the
confirmation reply. -/
theorem C7_create_write_failure (writeOk : Bool) (now now2 : Int)
    (store : Store) (rid : String) (cid : Int) (uid task created : String)
    (s : Nat) :
    (writeOk = false →
      cmd_remind_create writeOk now now2 store rid cid uid task created s =
        Except.error
          "OSError raised by save_reminders propagates out of cmd_remind; no reply is sent") ∧
    (writeOk = true →
      cmd_remind_create writeOk now now2 store rid cid uid task created s =
        Except.ok
          (dictInsert rid
            { id := rid, chat_id := cid, user_id := uid, task := task,
              when_ts := now + (s : Int), created_at := created } store,
           schedule_reminder_in_app now2
            { id := rid, chat_id := cid, user_id := uid, task := task,
              when_ts := now + (s : Int), created_at := created },
           ["✅ Reminder set (ID: " ++ rid ++ ") Task: " ++ task])) := by
  constructor <;> intro h <;> subst h <;> rfl

/-- C7 witness: a successful write yields the confirmation reply. -/
theorem C7_create_write_failure_witness :
    cmd_remind_create true 0 0 [] "rid-2" 1 "u" "drink water" "c" 10 =
      Except.ok
        (dictInsert "rid-2"
          { id := "rid-2", chat_id := 1, user_id := "u", task := "drink water",
            when_ts := 0 + ((10 : Nat) : Int), created_at := "c" } [],
         schedule_reminder_in_app 0
          { id := "rid-2", chat_id := 1, user_id := "u", task := "drink water",
            when_ts := 0 + ((10 : Nat) : Int), created_at := "c" },
         ["✅ Reminder set (ID: " ++ "rid-2" ++ ") Task: " ++ "drink water"]) :=
  (C7_create_write_failure true 0 0 [] "rid-2" 1 "u" "drink water" "c" 10).2 rfl

/-! ## Claim C4: the fired callback always consumes the record -/

/-- C4: after the fired callback `alarm` completes, the store no longer
contains the fired id; the resulting store is the same whether the
outbound send succeeded or raised; and when the id is already absent
the callback leaves the store untouched (a no-op, not an error). -/
theorem C4_alarm_consume (sendOk : Bool) (store : Store) (rid task : String) :
    dictLookup rid (alarm sendOk store rid task).2 = none ∧
    (alarm sendOk store rid task).2 = (alarm (!sendOk) store rid task).2 ∧
    (dictLookup rid store = none → (alarm sendOk store rid task).2 = store) := by
  refine ⟨?_, ?_, ?_⟩
  · simp only [alarm]
    by_cases h : store.any (fun p => p.1 = rid)
    · simp [h, dictLookup_dictErase]
    · simp only [Bool.not_eq_true] at h
      simp [h, (dictLookup_none_iff rid store).mpr h]
  · simp [alarm]
  · intro h
    have hany := (dictLookup_none_iff rid store).mp h
    simp [alarm, hany]

/-- C4 witness: firing deletes the record even when the send raised,
and firing an id absent from an empty store is a no-op. -/
theorem C4_alarm_consume_witness :
    dictLookup "r-past" (alarm false [("r-past", pastReminder)] "r-past" "stretch").2 = none ∧
    (alarm true [] "ghost" "x").2 = [] :=
  ⟨(C4_alarm_consume false [("r-past", pastReminder)] "r-past" "stretch").1,
   (C4_alarm_consume true [] "ghost" "x").2.2 rfl⟩

/-! ## Claim C5: startup recovery of persisted reminders -/

theorem schedule_past_floored (now : Int) (r : Reminder)
    (h : r.when_ts ≤ now) :
    schedule_reminder_in_app now r =
      some { delay := 1, chat_id := r.chat_id, name := r.id,
             task := r.task, rid := r.id } := by
  simp only [schedule_reminder_in_app]
  have hdelay : (if r.when_ts - now ≤ 0 then (1 : Int) else r.when_ts - now) = 1 :=
    if_pos (by omega)
  rw [hdelay]
  rw [if_neg (by decide)]

theorem mem_reschedule (arm : Reminder → Option Job) (store : Store)
    (rid : String) (r : Reminder) (j : Job)
    (hmem : (rid, r) ∈ store) (hj : arm r = some j) :
    j ∈ reschedule_persisted_reminders arm store := by
  induction store with
  | nil => cases hmem
  | cons p rest ih =>
    obtain ⟨a, b⟩ := p
    rcases List.mem_cons.mp hmem with heq | hm
    · injection heq with h1 h2
      subst h1
      subst h2
      simp [reschedule_persisted_reminders, hj]
    · cases harm : arm b with
      | none => simpa [reschedule_persisted_reminders, harm] using ih hm
      | some j2 =>
        simp only [reschedule_persisted_reminders, harm]
        exact List.mem_cons_of_mem _ (ih hm)

/-- C5: on recovery, every persisted record whose fire time has passed
is re-registered with the floor delay of one second and is armed (the
floor never exceeds the ceiling), and the outcome of one record in the
reload loop never affects how the records before and after it are
processed (a refusal or an exception on one record is skipped and the
loop continues). -/
theorem C5_recovery_reload (now : Int) (store : Store) (rid : String)
    (r : Reminder) :
    ((rid, r) ∈ store → r.when_ts ≤ now →
      ({ delay := 1, chat_id := r.chat_id, name := r.id, task := r.task,
         rid := r.id } : Job) ∈
        reschedule_persisted_reminders (schedule_reminder_in_app now) store) ∧
    (∀ (arm : Reminder → Option Job) (l1 l2 : Store) (p : String × Reminder),
      reschedule_persisted_reminders arm (l1 ++ p :: l2) =
        reschedule_persisted_reminders arm l1 ++ (arm p.2).toList ++
          reschedule_persisted_reminders arm l2) := by
  constructor
  · intro hmem hpast
    exact mem_reschedule _ store rid r _ hmem (schedule_past_floored now r hpast)
  · intro arm l1 l2 p
    induction l1 with
    | nil =>
      obtain ⟨a, b⟩ := p
      cases harm : arm b <;>
        simp [reschedule_persisted_reminders, harm]
    | cons q rest ih =>
      obtain ⟨a, b⟩ := q
      cases harm : arm b <;>
        simp [reschedule_persisted_reminders, harm, ih]

/-- C5 witness: a store holding one record 50 seconds in the past,
recovered at clock 100, arms a 1-second timer for it. -/
theorem C5_recovery_reload_witness :
    ({ delay := 1, chat_id := pastReminder.chat_id, name := pastReminder.id,
       task := pastReminder.task, rid := pastReminder.id } : Job) ∈
      reschedule_persisted_reminders (schedule_reminder_in_app 100)
        [("r-past", pastReminder)] :=
  (C5_recovery_reload 100 [("r-past", pastReminder)] "r-past" pastReminder).1
    (by decide) (by decide)

/-! ## Claim C9: keys of the persisted mapping equal the record ids -/

/-- C9: each operation that writes the persisted reminder mapping — the
create path of the `/remind` command, the create path of the
natural-language handler, cancel, and the fired-callback consume —
preserves the invariant that every key of the mapping equals the `id`
field of the record stored under it. -/
theorem C9_key_id_invariant (store : Store) (h : storeWF store = true)
    (writeOk : Bool) (now now2 : Int) (rid : String) (cid : Int)
    (uid task created : String) (s : Nat) (sendOk : Bool) :
    (∀ s2 j msgs,
      cmd_remind_create writeOk now now2 store rid cid uid task created s =
        Except.ok (s2, j, msgs) → storeWF s2 = true) ∧
    (∀ s2 j msgs,
      set_reminder_create writeOk now now2 store rid cid uid task created s =
        Except.ok (s2, j, msgs) → storeWF s2 = true) ∧
    storeWF (cancel_reminder store rid).1 = true ∧
    storeWF (alarm sendOk store rid task).2 = true := by
  refine ⟨?_, ?_, ?_, ?_⟩
  · intro s2 j msgs heq
    cases writeOk with
    | false => simp [cmd_remind_create] at heq
    | true =>
      simp only [cmd_remind_create, if_true, Except.ok.injEq, Prod.mk.injEq] at heq
      rw [← heq.1]
      exact storeWF_insert store rid _ rfl h
  · intro s2 j msgs heq
    cases writeOk with
    | false => simp [set_reminder_create] at heq
    | true =>
      simp only [set_reminder_create, if_true, Except.ok.injEq, Prod.mk.injEq] at heq
      rw [← heq.1]
      exact storeWF_insert store rid _ rfl h
  · rw [cancel_reminder]
    by_cases hc : (dictLookup rid store).isNone
    · simp [hc, h]
    · simp only [hc, if_false]
      exact storeWF_filter store _ h
  · rw [alarm]
    by_cases hc : store.any (fun p => p.1 = rid)
    · simp only [hc, if_true]
      exact storeWF_filter store _ h
    · simp only [hc, if_false]
      exact h

/-- C9 witness: the invariant survives a cancel of an absent id and a
firing consume on a well-formed one-record store. -/
theorem C9_key_id_invariant_witness :
    storeWF (cancel_reminder [("r-past", pastReminder)] "zzz").1 = true ∧
    storeWF (alarm true [("r-past", pastReminder)] "r-past" "stretch").2 = true :=
  ⟨(C9_key_id_invariant [("r-past", pastReminder)] (by decide)
      true 0 0 "zzz" 0 "" "" "" 1 true).2.2.1,
   (C9_key_id_invariant [("r-past", pastReminder)] (by decide)
      true 0 0 "r-past" 0 "" "stretch" "" 1 true).2.2.2⟩

/-! ## Claim C10: the creation path never trips the scheduler ceiling -/

theorem parse_bounds (t : String) (s : Nat) (m : Option String)
    (h : parse_delay_from_text t = (some s, m)) :
    1 ≤ s ∧ s ≤ MAX_REMINDER_SECONDS := by
  unfold parse_delay_from_text at h
  cases hs : timeReSearch (normalizeText t) with
  | none => rw [hs] at h; simp at h
  | some r =>
    obtain ⟨n, u, mm⟩ := r
    rw [hs] at h
    simp only at h
    by_cases h1 : unitSeconds n u > MAX_REMINDER_SECONDS
    · rw [if_pos h1] at h; simp at h
    · rw [if_neg h1] at h
      by_cases h2 : unitSeconds n u < MIN_REMINDER_SECONDS
      · rw [if_pos h2] at h
        have hs1 : s = MIN_REMINDER_SECONDS := by
          have := congrArg Prod.fst h
          simpa using this.symm
        subst hs1
        refine ⟨le_refl _, ?_⟩
        simp [MIN_REMINDER_SECONDS, MAX_REMINDER_SECONDS]
      · rw [if_neg h2] at h
        have hs1 : s = unitSeconds n u := by
          have := congrArg Prod.fst h
          simpa using this.symm
        subst hs1
        simp only [MIN_REMINDER_SECONDS] at h2
        omega

/-- C10: for every reminder created from a successful parse (so its
`when_ts` is `now + seconds` with the parsed seconds), the delay
recomputed inside `schedule_reminder_in_app` at any later clock reading
never exceeds the ceiling, and the timer is always armed: the ceiling
refusal branch is unreachable from the creation path. -/
theorem C10_creation_always_armed (t : String) (s : Nat) (m : String)
    (now now2 : Int) (rid : String) (cid : Int) (uid task created : String)
    (hp : parse_delay_from_text t = (some s, some m)) (hnow : now ≤ now2) :
    (schedule_reminder_in_app now2
      { id := rid, chat_id := cid, user_id := uid, task := task,
        when_ts := now + (s : Int), created_at := created }).isSome = true := by
  obtain ⟨h1, h2⟩ := parse_bounds t s (some m) hp
  have hcast : (s : Int) ≤ 31536000 := by
    have : (s : Int) ≤ (MAX_REMINDER_SECONDS : Int) := by exact_mod_cast h2
    simpa [MAX_REMINDER_SECONDS] using this
  simp only [schedule_reminder_in_app]
  have hMAX : (MAX_REMINDER_SECONDS : Int) = 31536000 := by
    simp [MAX_REMINDER_SECONDS]
  rw [hMAX]
  rw [if_neg ?hceil]
  · simp
  case hceil =>
    by_cases hD : now + (s : Int) - now2 ≤ 0
    · rw [if_pos hD]; omega
    · rw [if_neg hD]; omega

/-- C10 witness: a reminder created from parsing `"5s"` at clock 0 is
armed when registered at the same clock. -/
theorem C10_creation_always_armed_witness :
    (schedule_reminder_in_app 0
      { id := "w1", chat_id := 2, user_id := "u", task := "t",
        when_ts := 0 + ((5 : Nat) : Int), created_at := "c" }).isSome = true :=
  C10_creation_always_armed "5s" 5 "5s" 0 0 "w1" 2 "u" "t" "c"
    (by decide) (by decide)

/-! ## Claim C1: exact recovery of in-range durations -/

theorem digitChars_isDigit {c : Char} (h : c ∈ digitChars) :
    isDigitCharB c = true := by
  simp only [digitChars] at h
  fin_cases h <;> decide

theorem digitChars_not_space {c : Char} (h : c ∈ digitChars) :
    isSpaceCharB c = false := by
  simp only [digitChars] at h
  fin_cases h <;> decide

theorem digitChars_ne_i {c : Char} (h : c ∈ digitChars) : c ≠ 'i' := by
  simp only [digitChars] at h
  fin_cases h <;> decide

theorem digitChars_isWord {c : Char} (h : c ∈ digitChars) :
    isWordCharB c = true := by
  simp only [digitChars] at h
  fin_cases h <;> decide

theorem spanList_split (p : Char → Bool) (xs ys : List Char)
    (h1 : ∀ c ∈ xs, p c = true)
    (h2 : ∀ c, ys.head? = some c → p c = false) :
    spanList p (xs ++ ys) = (xs, ys) := by
  induction xs with
  | nil =>
    simp only [List.nil_append]
    cases ys with
    | nil => rfl
    | cons c rest =>
      have hc := h2 c rfl
      simp [spanList, hc]
  | cons x xs ih =>
    have hx := h1 x (List.mem_cons_self x xs)
    have ih2 := ih (fun c hc => h1 c (List.mem_cons_of_mem _ hc))
    simp only [List.cons_append, spanList, hx, if_true, List.append_eq, ih2]

theorem matchNumUnit_canonical (a : Char) (as : List Char) (u : String)
    (hds : ∀ c ∈ a :: as, c ∈ digitChars)
    (hu1 : matchUnit u.toList = some (u, []))
    (hu2 : ∀ c, u.toList.head? = some c → isSpaceCharB c = false) :
    matchNumUnit (a :: (as ++ ' ' :: u.toList)) =
      some (digitsVal (a :: as), u, a :: (as ++ ' ' :: u.toList)) := by
  have hspan1 : spanList isDigitCharB (a :: (as ++ ' ' :: u.toList)) =
      (a :: as, ' ' :: u.toList) := by
    have h := spanList_split isDigitCharB (a :: as) (' ' :: u.toList)
      (fun c hc => digitChars_isDigit (hds c hc))
      (fun c hc => by
        simp only [List.head?_cons, Option.some.injEq] at hc
        subst hc
        decide)
    simpa only [List.cons_append] using h
  have hspan2 : spanList isSpaceCharB (' ' :: u.toList) = ([' '], u.toList) := by
    have h := spanList_split isSpaceCharB [' '] u.toList
      (by intro c hc; simp at hc; subst hc; decide) hu2
    simpa only [List.singleton_append] using h
  simp only [matchNumUnit, hspan1, hspan2, hu1, List.isEmpty_cons,
    Bool.false_eq_true, if_false]
  simp

theorem tryMatchAt_canonical_bare (a : Char) (as : List Char) (u : String)
    (hds : ∀ c ∈ a :: as, c ∈ digitChars)
    (hu1 : matchUnit u.toList = some (u, []))
    (hu2 : ∀ c, u.toList.head? = some c → isSpaceCharB c = false) :
    tryMatchAt (a :: (as ++ ' ' :: u.toList)) =
      some (digitsVal (a :: as), u, a :: (as ++ ' ' :: u.toList)) := by
  have hai : a ≠ 'i' := digitChars_ne_i (hds a (List.mem_cons_self a as))
  have hlit : matchLit ['i', 'n'] (a :: (as ++ ' ' :: u.toList)) = none := by
    simp only [matchLit, if_neg hai]
  simp only [tryMatchAt, hlit]
  exact matchNumUnit_canonical a as u hds hu1 hu2

theorem tryMatchAt_canonical_in (a : Char) (as : List Char) (u : String)
    (hds : ∀ c ∈ a :: as, c ∈ digitChars)
    (hu1 : matchUnit u.toList = some (u, []))
    (hu2 : ∀ c, u.toList.head? = some c → isSpaceCharB c = false) :
    tryMatchAt ('i' :: 'n' :: ' ' :: (a :: (as ++ ' ' :: u.toList))) =
      some (digitsVal (a :: as), u,
        'i' :: 'n' :: ' ' :: (a :: (as ++ ' ' :: u.toList))) := by
  have hnum := matchNumUnit_canonical a as u hds hu1 hu2
  have hlit : matchLit ['i', 'n']
      ('i' :: 'n' :: ' ' :: (a :: (as ++ ' ' :: u.toList))) =
      some (' ' :: (a :: (as ++ ' ' :: u.toList))) := by
    simp [matchLit]
  have h0 : isSpaceCharB a = false :=
    digitChars_not_space (hds a (List.mem_cons_self a as))
  have hspan : spanList isSpaceCharB (' ' :: (a :: (as ++ ' ' :: u.toList))) =
      ([' '], a :: (as ++ ' ' :: u.toList)) := by
    have h := spanList_split isSpaceCharB [' '] (a :: (as ++ ' ' :: u.toList))
      (by intro c hc; simp at hc; subst hc; decide)
      (by
        intro c hc
        simp only [List.head?_cons, Option.some.injEq] at hc
        subst hc
        exact h0)
    simpa only [List.singleton_append] using h
  simp only [tryMatchAt, hlit, hspan, hnum]
  simp

theorem searchTimeAux_cons_found (prevWord : Bool) (c : Char)
    (rest : List Char) (r : Nat × String × List Char)
    (hb : (prevWord != isWordCharB c) = true)
    (hm : tryMatchAt (c :: rest) = some r) :
    searchTimeAux prevWord (c :: rest) = some r := by
  rw [searchTimeAux, if_pos hb, hm]

theorem timeReSearch_canonical (pre : Bool) (a : Char) (as : List Char)
    (u : String)
    (hds : ∀ c ∈ a :: as, c ∈ digitChars)
    (hu1 : matchUnit u.toList = some (u, []))
    (hu2 : ∀ c, u.toList.head? = some c → isSpaceCharB c = false) :
    timeReSearch
        ((if pre then ['i', 'n', ' '] else []) ++ (a :: as) ++ ' ' :: u.toList) =
      some (digitsVal (a :: as), u,
        (if pre then ['i', 'n', ' '] else []) ++ (a :: as) ++ ' ' :: u.toList) := by
  cases pre with
  | false =>
    have hword : isWordCharB a = true :=
      digitChars_isWord (hds a (List.mem_cons_self a as))
    have hbare := tryMatchAt_canonical_bare a as u hds hu1 hu2
    show timeReSearch (a :: (as ++ ' ' :: u.toList)) =
      some (digitsVal (a :: as), u, a :: (as ++ ' ' :: u.toList))
    exact searchTimeAux_cons_found false a _ _ (by rw [hword]; rfl) hbare
  | true =>
    have hin := tryMatchAt_canonical_in a as u hds hu1 hu2
    show timeReSearch ('i' :: 'n' :: ' ' :: (a :: (as ++ ' ' :: u.toList))) =
      some (digitsVal (a :: as), u,
        'i' :: 'n' :: ' ' :: (a :: (as ++ ' ' :: u.toList)))
    exact searchTimeAux_cons_found false 'i' _ _ (by decide) hin

theorem parse_canonical (t : String) (pre : Bool) (a : Char) (as : List Char)
    (u : String)
    (hds : ∀ c ∈ a :: as, c ∈ digitChars)
    (hu1 : matchUnit u.toList = some (u, []))
    (hu2b : (match u.toList.head? with
             | some c => !isSpaceCharB c
             | none => true) = true)
    (ht : normalizeText t =
      (if pre then ['i', 'n', ' '] else []) ++ (a :: as) ++ ' ' :: u.toList)
    (h1 : 1 ≤ unitSeconds (digitsVal (a :: as)) u)
    (h2 : unitSeconds (digitsVal (a :: as)) u ≤ MAX_REMINDER_SECONDS) :
    (parse_delay_from_text t).1 = some (unitSeconds (digitsVal (a :: as)) u) := by
  have hu2 : ∀ c, u.toList.head? = some c → isSpaceCharB c = false := by
    intro c hc
    rw [hc] at hu2b
    simpa using hu2b
  unfold parse_delay_from_text
  rw [ht, timeReSearch_canonical pre a as u hds hu1 hu2]
  have hA : ¬ unitSeconds (digitsVal (a :: as)) u > MAX_REMINDER_SECONDS := by
    omega
  have hB : ¬ unitSeconds (digitsVal (a :: as)) u < MIN_REMINDER_SECONDS := by
    simp only [MIN_REMINDER_SECONDS]
    omega
  simp [hA, hB]

/-- C1: for every quantity (given as a nonempty run of decimal digit
characters, whose value is `digitsVal`) and every supported unit token,
on any text that normalizes (strip + lowercase) to the quantity
followed by the unit — optionally preceded by `in` — the parser
returns exactly `unitSeconds` of the quantity and the unit, i.e. the
quantity times the multiplier resolved from the unit prefix (`s` ×1,
`m` ×60, `h` ×3600, `d` ×86400), whenever that total lies between 1
and 31536000 seconds.  Any casing of the original text is covered,
since normalization is quantified over. -/
theorem C1_exact_parse (t : String) (pre : Bool) (a : Char) (as : List Char)
    (u : String) (hu : u ∈ unitAlternatives)
    (hds : ∀ c ∈ a :: as, c ∈ digitChars)
    (ht : normalizeText t =
      (if pre then ['i', 'n', ' '] else []) ++ (a :: as) ++ ' ' :: u.toList)
    (h1 : 1 ≤ unitSeconds (digitsVal (a :: as)) u)
    (h2 : unitSeconds (digitsVal (a :: as)) u ≤ MAX_REMINDER_SECONDS) :
    (parse_delay_from_text t).1 = some (unitSeconds (digitsVal (a :: as)) u) := by
  simp only [unitAlternatives] at hu
  fin_cases hu <;>
    exact parse_canonical t pre a as _ hds (by decide) (by decide) ht h1 h2

/-- C1 witness: `"In 2 Hours"` parses to exactly 7200 seconds. -/
theorem C1_exact_parse_witness :
    (parse_delay_from_text "In 2 Hours").1 =
      some (unitSeconds (digitsVal ['2']) "hours") :=
  C1_exact_parse "In 2 Hours" true '2' [] "hours" (by decide) (by decide)
    (by decide) (by decide) (by decide)
